import Mathlib

/-!
Verification of the card-tracker domain core (src/app.py).

The Python source is shallowly embedded: pandas DataFrames become `List`s of
records, column-wise numeric coercion (`pd.to_numeric(...).fillna(0)`) becomes
`Option Int` fields read with `Option.getD 0`, machine-level details are
irrelevant (plain Python ints).  External collaborators (the spreadsheet store,
the pandas date parser, the third-party Korean-holiday table) are parameters of
the embedded functions; all repository logic is translated directly from
src/app.py.
-/

namespace CardTracker

/-- A Python `datetime.date`: year, month, day (valid dates have
`1 ≤ month ≤ 12`, `1 ≤ day ≤ daysInMonth year month`, `1 ≤ year`). -/
structure PyDate where
  year : Nat
  month : Nat
  day : Nat
deriving DecidableEq, Repr

/-- Validity of a `PyDate` month field (the part of Python date validity the
month-window arithmetic depends on). -/
def validMonth (d : PyDate) : Prop := 1 ≤ d.month ∧ d.month ≤ 12

instance (d : PyDate) : Decidable (validMonth d) := by
  unfold validMonth; infer_instance

/-- Python `f"{n:02d}"`: decimal representation left-padded with zeros to width 2. -/
def pad2 (n : Nat) : String :=
  if n < 10 then "0" ++ Nat.repr n else Nat.repr n

/-- Python `f"{n:04d}"`: decimal representation left-padded with zeros to width 4. -/
def pad4 (n : Nat) : String :=
  if n < 10 then "000" ++ Nat.repr n
  else if n < 100 then "00" ++ Nat.repr n
  else if n < 1000 then "0" ++ Nat.repr n
  else Nat.repr n

/-- src/app.py `ym`: `f"{d.year:04d}-{d.month:02d}"`. -/
def ym (d : PyDate) : String := pad4 d.year ++ "-" ++ pad2 d.month

/-- Value of `d - relativedelta(months=1)` for a first-of-month date (the day component
is 1 and stays 1, so no day clamping occurs). -/
def prevMonthD (d : PyDate) : PyDate :=
  if d.month = 1 then ⟨d.year - 1, 12, d.day⟩ else ⟨d.year, d.month - 1, d.day⟩

/-- Value of `d + relativedelta(months=1)` for a first-of-month date. -/
def nextMonthD (d : PyDate) : PyDate :=
  if d.month = 12 then ⟨d.year + 1, 1, d.day⟩ else ⟨d.year, d.month + 1, d.day⟩

/-- src/app.py `allowed_months`: the rolling window
`[ym(this - 1 month), ym(this), ym(this + 1 month)]` where `this` is the first
of `today`'s month. -/
def allowed_months (today : PyDate) : List String :=
  let this_m : PyDate := ⟨today.year, today.month, 1⟩
  let m_prev := prevMonthD this_m
  let m_next := nextMonthD this_m
  [ym m_prev, ym this_m, ym m_next]

/-- A transaction row of the `tx` table.  `card_id` is `none` when the cell is
null (pandas `NaN`), `amount` is `none` when the cell is missing or
non-numeric (`pd.to_numeric(..., errors="coerce")` produces `NaN`). -/
structure Tx where
  tx_id : String
  date : String
  month : String
  card_id : Option String
  amount : Option Int
  item : String
deriving DecidableEq, Repr

/-- src/app.py `cleanup_tx`: keep exactly the rows whose `month` is in the
allowed window (`tx_df[tx_df["month"].isin(allowed)]`); an empty frame is
returned unchanged. -/
def cleanup_tx (tx_df : List Tx) (allowed : List String) : List Tx :=
  if tx_df.isEmpty then tx_df
  else tx_df.filter (fun t => t.month ∈ allowed)

/-- The first day of the month of `d` (`date(d.year, d.month, 1)`). -/
def firstOfMonth (d : PyDate) : PyDate := ⟨d.year, d.month, 1⟩

/-- True iff `y` is a Gregorian leap year (`calendar.isleap`). -/
def isLeapYear (y : Nat) : Bool := y % 4 = 0 && (y % 100 != 0 || y % 400 = 0)

/-- Python `calendar.monthrange(y, m)[1]`: number of days in month `m` of year `y`. -/
def daysInMonth (y m : Nat) : Nat :=
  if m = 2 then (if isLeapYear y then 29 else 28)
  else if m = 4 ∨ m = 6 ∨ m = 9 ∨ m = 11 then 30
  else 31

/-- Value of `d + relativedelta(months=1)` on an arbitrary date: the month advances and
the day is clamped to the length of the new month. -/
def dateAddOneMonth (d : PyDate) : PyDate :=
  let p := nextMonthD (firstOfMonth d)
  ⟨p.year, p.month, min d.day (daysInMonth p.year p.month)⟩

/-- Linear index of a (year, month) pair: consecutive calendar months have
consecutive indices. -/
def monthIdx (d : PyDate) : Nat := 12 * d.year + d.month

/-- The last two characters of a string (used to read the `MM` component back
off a `YYYY-MM` string). -/
def lastTwo (s : String) : String := String.mk ((s.data.reverse.take 2).reverse)

/- ----------------------------------------------------------------- -/
/- Lemmas about the month-window calculator                           -/
/- ----------------------------------------------------------------- -/

theorem cleanup_tx_eq_filter (T : List Tx) (W : List String) :
    cleanup_tx T W = T.filter (fun t => t.month ∈ W) := by
  unfold cleanup_tx
  split_ifs with h
  · simp only [List.isEmpty_iff] at h
    subst h
    rfl
  · rfl

theorem pad2_length_eq_two : ∀ m < 13, 1 ≤ m → (pad2 m).data.length = 2 := by
  decide

theorem pad2_injOn : ∀ m₁ < 13, ∀ m₂ < 13, pad2 m₁ = pad2 m₂ → m₁ = m₂ := by
  decide

theorem lastTwo_append (s t : String) (h : t.data.length = 2) :
    lastTwo (s ++ t) = t := by
  unfold lastTwo
  have hd : (s ++ t).data = s.data ++ t.data := rfl
  rw [hd, List.reverse_append, List.take_left' (by simpa using h),
    List.reverse_reverse]

theorem ym_month_inj (d₁ d₂ : PyDate) (h₁ : validMonth d₁) (h₂ : validMonth d₂)
    (h : ym d₁ = ym d₂) : d₁.month = d₂.month := by
  obtain ⟨ha1, ha2⟩ := h₁
  obtain ⟨hb1, hb2⟩ := h₂
  have e : lastTwo (ym d₁) = lastTwo (ym d₂) := by rw [h]
  unfold ym at e
  rw [lastTwo_append _ _ (pad2_length_eq_two d₁.month (by omega) ha1),
    lastTwo_append _ _ (pad2_length_eq_two d₂.month (by omega) hb1)] at e
  exact pad2_injOn d₁.month (by omega) d₂.month (by omega) e

theorem ym_ne_of_month_ne (d₁ d₂ : PyDate) (h₁ : validMonth d₁)
    (h₂ : validMonth d₂) (hm : d₁.month ≠ d₂.month) : ym d₁ ≠ ym d₂ :=
  fun h => hm (ym_month_inj d₁ d₂ h₁ h₂ h)

theorem validMonth_prevMonthD (d : PyDate) (h : validMonth d) :
    validMonth (prevMonthD d) := by
  obtain ⟨h1, h2⟩ := h
  unfold prevMonthD validMonth
  split_ifs <;> simp_all <;> omega

theorem validMonth_nextMonthD (d : PyDate) (h : validMonth d) :
    validMonth (nextMonthD d) := by
  obtain ⟨h1, h2⟩ := h
  unfold nextMonthD validMonth
  split_ifs <;> simp_all <;> omega

theorem month_prevMonthD (d : PyDate) :
    (prevMonthD d).month = if d.month = 1 then 12 else d.month - 1 := by
  unfold prevMonthD
  split_ifs <;> rfl

theorem month_nextMonthD (d : PyDate) :
    (nextMonthD d).month = if d.month = 12 then 1 else d.month + 1 := by
  unfold nextMonthD
  split_ifs <;> rfl

theorem prevMonthD_nextMonthD (d : PyDate) (h : validMonth d) :
    prevMonthD (nextMonthD d) = d := by
  obtain ⟨h1, h2⟩ := h
  unfold prevMonthD nextMonthD
  split_ifs with ha hb hb <;> cases d <;> simp_all <;> omega

theorem firstOfMonth_dateAddOneMonth (d : PyDate) :
    firstOfMonth (dateAddOneMonth d) = nextMonthD (firstOfMonth d) := by
  unfold dateAddOneMonth firstOfMonth nextMonthD
  split_ifs <;> rfl

/-- C6: for every (valid) evaluation date, `allowed_months` returns the
ordered triple [previous month, current month, next month] as `YYYY-MM`
strings; the three strings are pairwise distinct, the underlying months are
consecutive (with year rollover handled by the month-index equations), and
evaluating at the date shifted forward one month shifts the triple by exactly
one month.  Determinism is inherent: the embedding is a pure function. -/
theorem allowed_months_window_spec (today : PyDate) (hv : validMonth today)
    (hy : 1 ≤ today.year) :
    allowed_months today =
      [ym (prevMonthD (firstOfMonth today)), ym (firstOfMonth today),
        ym (nextMonthD (firstOfMonth today))]
    ∧ (allowed_months today).length = 3
    ∧ List.Pairwise (fun a b => a ≠ b) (allowed_months today)
    ∧ monthIdx (firstOfMonth today) =
        monthIdx (prevMonthD (firstOfMonth today)) + 1
    ∧ monthIdx (nextMonthD (firstOfMonth today)) =
        monthIdx (firstOfMonth today) + 1
    ∧ allowed_months (dateAddOneMonth today) =
        [ym (firstOfMonth today), ym (nextMonthD (firstOfMonth today)),
          ym (nextMonthD (nextMonthD (firstOfMonth today)))] := by
  have hvf : validMonth (firstOfMonth today) := hv
  have hp := validMonth_prevMonthD _ hvf
  have hn := validMonth_nextMonthD _ hvf
  obtain ⟨h1, h2⟩ := hv
  refine ⟨rfl, rfl, ?_, ?_, ?_, ?_⟩
  · have e1 : (prevMonthD (firstOfMonth today)).month ≠
        (firstOfMonth today).month := by
      rw [month_prevMonthD]
      show (if today.month = 1 then 12 else today.month - 1) ≠ today.month
      split_ifs <;> omega
    have e2 : (firstOfMonth today).month ≠
        (nextMonthD (firstOfMonth today)).month := by
      rw [month_nextMonthD]
      show today.month ≠ (if today.month = 12 then 1 else today.month + 1)
      split_ifs <;> omega
    have e3 : (prevMonthD (firstOfMonth today)).month ≠
        (nextMonthD (firstOfMonth today)).month := by
      rw [month_prevMonthD, month_nextMonthD]
      show (if today.month = 1 then 12 else today.month - 1) ≠
        (if today.month = 12 then 1 else today.month + 1)
      split_ifs <;> omega
    show List.Pairwise (fun a b => a ≠ b)
      [ym (prevMonthD (firstOfMonth today)), ym (firstOfMonth today),
        ym (nextMonthD (firstOfMonth today))]
    simp only [List.pairwise_cons, List.mem_cons, List.mem_singleton,
      List.not_mem_nil, forall_eq_or_imp, forall_eq]
    exact ⟨⟨ym_ne_of_month_ne _ _ hp hvf e1,
      ym_ne_of_month_ne _ _ hp hn e3, by simp⟩,
      ⟨ym_ne_of_month_ne _ _ hvf hn e2, by simp⟩, by simp⟩
  · unfold monthIdx prevMonthD firstOfMonth
    split_ifs <;> simp_all <;> omega
  · unfold monthIdx nextMonthD firstOfMonth
    split_ifs <;> simp_all <;> omega
  · have unf : allowed_months (dateAddOneMonth today) =
        [ym (prevMonthD (firstOfMonth (dateAddOneMonth today))),
          ym (firstOfMonth (dateAddOneMonth today)),
          ym (nextMonthD (firstOfMonth (dateAddOneMonth today)))] := rfl
    rw [unf, firstOfMonth_dateAddOneMonth,
      prevMonthD_nextMonthD _ hvf]

/-- Witness for C6 at the year-rollover date 2025-01-15: the window is
["2024-12", "2025-01", "2025-02"] and its entries are pairwise distinct. -/
theorem allowed_months_window_spec_witness :
    allowed_months (PyDate.mk 2025 1 15) = ["2024-12", "2025-01", "2025-02"]
    ∧ List.Pairwise (fun a b => a ≠ b)
        (allowed_months (PyDate.mk 2025 1 15)) :=
  ⟨by decide,
    (allowed_months_window_spec (PyDate.mk 2025 1 15) (by decide)
      (by decide)).2.2.1⟩

/-- C5: `cleanup_tx` returns exactly the rows whose month is in the allowed
window, in their original relative order (it is the sublist of rows satisfying
the window-membership predicate), and it is idempotent. -/
theorem cleanup_tx_spec (T : List Tx) (W : List String) :
    cleanup_tx T W = T.filter (fun t => t.month ∈ W)
    ∧ (cleanup_tx T W).Sublist T
    ∧ (∀ t, t ∈ cleanup_tx T W ↔ t ∈ T ∧ t.month ∈ W)
    ∧ cleanup_tx (cleanup_tx T W) W = cleanup_tx T W := by
  refine ⟨cleanup_tx_eq_filter T W, ?_, ?_, ?_⟩
  · rw [cleanup_tx_eq_filter]
    exact List.filter_sublist _
  · intro t
    rw [cleanup_tx_eq_filter, List.mem_filter]
    simp
  · simp [cleanup_tx_eq_filter, List.filter_filter]

/- ----------------------------------------------------------------- -/
/- Dashboard aggregation (src/app.py compute_dashboard)               -/
/- ----------------------------------------------------------------- -/

/-- A row of the `cards` table.  `monthly_target` / `fixed_cost` are `none`
when the cell is missing or non-numeric (coerced to 0 by `pd.to_numeric` +
`fillna(0)`); `active` is the boolean produced by the normalization at
src/app.py lines 131-138. -/
structure Card where
  card_id : String
  card_name : String
  monthly_target : Option Int
  fixed_cost : Option Int
  active : Bool
deriving DecidableEq, Repr

/-- Pandas `tx_m.groupby("card_id")["amount"].sum()`: one `(card_id, sum)` pair per
distinct non-null `card_id` occurring in `tx_m`, with missing/non-numeric
amounts coerced to 0 first.  (pandas drops null group keys.) -/
def spentTable (tx_m : List Tx) : List (String × Int) :=
  ((tx_m.filterMap (fun t => t.card_id)).dedup).map
    (fun k => (k, ((tx_m.filter (fun t => t.card_id = some k)).map
      (fun t => t.amount.getD 0)).sum))

/-- A row of the dashboard frame `out` (src/app.py lines 98-111); the numeric
columns are kept as integers, the thousands-separated display strings are
recomputed from them where needed (sort key). -/
structure Row where
  card_name : String
  monthly_target : Int
  fixed_cost : Int
  spent : Int
  effective_target : Int
  remaining : Int
  status : String
deriving DecidableEq, Repr

/-- The dashboard row for one active card: left-merge with the grouped spend
table (`fillna(0)` for cards with no transactions), `clip(lower=0)` on
effective target and remaining, and the status flag. -/
def mkRow (tx : List Tx) (month : String) (c : Card) : Row :=
  let tx_m := tx.filter (fun t => t.month = month)
  let spent := ((spentTable tx_m).lookup c.card_id).getD 0
  let mt := c.monthly_target.getD 0
  let fc := c.fixed_cost.getD 0
  let eff := max (mt - fc) 0
  { card_name := c.card_name
    monthly_target := mt
    fixed_cost := fc
    spent := spent
    effective_target := eff
    remaining := max (eff - spent) 0
    status := if spent ≥ eff then "✅" else "❌" }

/-- The unsorted dashboard: one row per active card (early empty return when
no card is active, mirroring src/app.py lines 87-89). -/
def dashboardRows (cards : List Card) (tx : List Tx) (month : String) :
    List Row :=
  let active_cards := cards.filter (fun c => c.active)
  if active_cards.isEmpty then []
  else active_cards.map (mkRow tx month)

/-- Insert `','` after every third character of a reversed digit string:
the tail of Python's `f"{x:,}"` formatting. -/
def group3 : List Char → List Char
  | [] => []
  | [a] => [a]
  | [a, b] => [a, b]
  | [a, b, c] => [a, b, c]
  | a :: b :: c :: d :: rest => a :: b :: c :: ',' :: group3 (d :: rest)

/-- Python `f"{x:,}"`: decimal representation with a thousands separator
every three digits. -/
def fmt (x : Int) : String :=
  if x < 0 then "-" ++ String.mk ((group3 (Nat.repr x.natAbs).data.reverse).reverse)
  else String.mk ((group3 (Nat.repr x.toNat).data.reverse).reverse)

/-- The composite sort key of src/app.py line 116: ascending by
(status, thousands-separated remaining string, card name), compared
lexicographically component-wise (pandas multi-column `sort_values` on the
display columns `상태`, `남은 금액`, `카드명`). -/
def rowLe (a b : Row) : Prop :=
  a.status.data < b.status.data ∨ (a.status.data = b.status.data ∧
    ((fmt a.remaining).data < (fmt b.remaining).data ∨
      ((fmt a.remaining).data = (fmt b.remaining).data ∧
        a.card_name.data ≤ b.card_name.data)))

instance rowLe.decidableRel : DecidableRel rowLe := fun a b => by
  unfold rowLe
  infer_instance

instance rowLe.isTotal : IsTotal Row rowLe := by
  constructor
  intro a b
  rcases lt_trichotomy a.status.data b.status.data with h | h | h
  · exact Or.inl (Or.inl h)
  · rcases lt_trichotomy (fmt a.remaining).data (fmt b.remaining).data
      with h2 | h2 | h2
    · exact Or.inl (Or.inr ⟨h, Or.inl h2⟩)
    · rcases le_total a.card_name.data b.card_name.data with h3 | h3
      · exact Or.inl (Or.inr ⟨h, Or.inr ⟨h2, h3⟩⟩)
      · exact Or.inr (Or.inr ⟨h.symm, Or.inr ⟨h2.symm, h3⟩⟩)
    · exact Or.inr (Or.inr ⟨h.symm, Or.inl h2⟩)
  · exact Or.inr (Or.inl h)

instance rowLe.isTrans : IsTrans Row rowLe := by
  constructor
  intro a b c hab hbc
  rcases hab with h1 | ⟨e1, h1⟩ <;> rcases hbc with h2 | ⟨e2, h2⟩
  · exact Or.inl (lt_trans h1 h2)
  · exact Or.inl (e2 ▸ h1)
  · exact Or.inl (e1 ▸ h2)
  · refine Or.inr ⟨e1.trans e2, ?_⟩
    rcases h1 with h1 | ⟨f1, h1⟩ <;> rcases h2 with h2 | ⟨f2, h2⟩
    · exact Or.inl (lt_trans h1 h2)
    · exact Or.inl (f2 ▸ h1)
    · exact Or.inl (f1 ▸ h2)
    · exact Or.inr ⟨f1.trans f2, le_trans h1 h2⟩

/-- src/app.py `compute_dashboard`: the dashboard rows sorted by the
composite key (status, remaining display string, card name). -/
def compute_dashboard (cards : List Card) (tx : List Tx) (month : String) :
    List Row :=
  List.insertionSort rowLe (dashboardRows cards tx month)

theorem dashboardRows_eq_map_filter (cards : List Card) (tx : List Tx)
    (m : String) :
    dashboardRows cards tx m =
      (cards.filter (fun c => c.active)).map (mkRow tx m) := by
  unfold dashboardRows
  dsimp only
  split_ifs with h
  · simp only [List.isEmpty_iff] at h
    rw [h]
    rfl
  · rfl

theorem lookup_map_self {β : Type} (f : String → β) (keys : List String)
    (k : String) :
    (keys.map (fun x => (x, f x))).lookup k =
      if k ∈ keys then some (f k) else none := by
  induction keys with
  | nil => simp
  | cons a as ih =>
    by_cases h : k = a
    · subst h
      simp [List.lookup]
    · have hba : (k == a) = false := beq_eq_false_iff_ne.mpr h
      simp only [List.map_cons, List.lookup, hba]
      rw [ih]
      simp [h]

theorem spentTable_lookup (tx_m : List Tx) (cid : String) :
    ((spentTable tx_m).lookup cid).getD 0 =
      ((tx_m.filter (fun t => t.card_id = some cid)).map
        (fun t => t.amount.getD 0)).sum := by
  unfold spentTable
  rw [lookup_map_self]
  by_cases h : cid ∈ (tx_m.filterMap (fun t => t.card_id)).dedup
  · simp [h]
  · rw [if_neg h]
    have hempty : tx_m.filter (fun t => t.card_id = some cid) = [] := by
      rw [List.filter_eq_nil_iff]
      intro t ht
      simp only [decide_eq_true_eq]
      intro hc
      exact h (List.mem_dedup.mpr (List.mem_filterMap.mpr ⟨t, ht, hc⟩))
    rw [hempty]
    rfl

/-- C2: the dashboard has exactly one row per active card and none for
inactive cards (it is a permutation of `mkRow` mapped over the active
filter); no active cards gives the empty list rather than an error; and each
card's spent is the sum of the amounts of the transactions with that card's
id and the target month, missing/non-numeric amounts counting as 0 (an empty
sum — no matching transactions — gives spent = 0). -/
theorem compute_dashboard_active_spec (cards : List Card) (tx : List Tx)
    (m : String) :
    (compute_dashboard cards tx m).Perm
      ((cards.filter (fun c => c.active)).map (mkRow tx m))
    ∧ (cards.filter (fun c => c.active) = [] →
        compute_dashboard cards tx m = [])
    ∧ (∀ c : Card, (mkRow tx m c).spent =
        ((tx.filter (fun t => t.month = m ∧ t.card_id = some c.card_id)).map
          (fun t => t.amount.getD 0)).sum) := by
  refine ⟨?_, ?_, ?_⟩
  · rw [← dashboardRows_eq_map_filter]
    exact List.perm_insertionSort rowLe _
  · intro h
    unfold compute_dashboard
    rw [dashboardRows_eq_map_filter, h]
    rfl
  · intro c
    have h1 : (mkRow tx m c).spent =
        ((spentTable (tx.filter (fun t => t.month = m))).lookup
          c.card_id).getD 0 := rfl
    rw [h1, spentTable_lookup, List.filter_filter]
    have hf : tx.filter
          (fun a => decide (a.card_id = some c.card_id) &&
            decide (a.month = m)) =
        tx.filter (fun t => t.month = m ∧ t.card_id = some c.card_id) := by
      apply List.filter_congr
      intro t _
      simp [Bool.and_comm]
    rw [hf]

/-- Witness for C2 on concrete data: one matching transaction pair
(2000 + 3000), one wrong-month transaction, one non-numeric amount. -/
theorem compute_dashboard_active_spec_witness :
    (mkRow
        [Tx.mk "t1" "2025-06-01" "2025-06" (some "c1") (some 2000) "",
         Tx.mk "t2" "2025-06-02" "2025-06" (some "c1") (some 3000) "",
         Tx.mk "t3" "2025-05-02" "2025-05" (some "c1") (some 7000) "",
         Tx.mk "t4" "2025-06-03" "2025-06" (some "c1") none ""] "2025-06"
        (Card.mk "c1" "A" (some 300000) (some 0) true)).spent = 5000 := by
  rw [(compute_dashboard_active_spec
    [Card.mk "c1" "A" (some 300000) (some 0) true]
    [Tx.mk "t1" "2025-06-01" "2025-06" (some "c1") (some 2000) "",
     Tx.mk "t2" "2025-06-02" "2025-06" (some "c1") (some 3000) "",
     Tx.mk "t3" "2025-05-02" "2025-05" (some "c1") (some 7000) "",
     Tx.mk "t4" "2025-06-03" "2025-06" (some "c1") none ""] "2025-06").2.2]
  decide

/-- C3 counterexample: a card fully offset by fixed cost (effective target 0)
whose month's net spend is negative (a negative adjustment entry, which the
entry form deliberately accepts) gets status "❌", so "effective_target = 0 ⇒
status trivially met" is false on the code. -/
theorem dashboard_row_targets_counterexample :
    (mkRow [Tx.mk "t1" "2025-06-01" "2025-06" (some "c1") (some (-1000)) ""]
        "2025-06" (Card.mk "c1" "A" (some 0) (some 0) true)).effective_target
      = 0
    ∧ (mkRow [Tx.mk "t1" "2025-06-01" "2025-06" (some "c1") (some (-1000)) ""]
        "2025-06" (Card.mk "c1" "A" (some 0) (some 0) true)).status ≠ "✅" := by
  decide

/-- C3 (amended): effective_target = max(0, monthly_target − fixed_cost) with
fixed_cost (and monthly_target) defaulting to 0 when absent, remaining =
max(0, effective_target − spent), both never negative, and status is "met"
exactly when spent ≥ effective_target; when effective_target is 0 the status
is met provided the month's net spend is non-negative (a negative net spend —
reachable through negative adjustment entries — gives "not met"). -/
theorem dashboard_row_targets_spec (tx : List Tx) (m : String) (c : Card) :
    (mkRow tx m c).effective_target =
      max 0 (c.monthly_target.getD 0 - c.fixed_cost.getD 0)
    ∧ 0 ≤ (mkRow tx m c).effective_target
    ∧ (mkRow tx m c).remaining =
        max 0 ((mkRow tx m c).effective_target - (mkRow tx m c).spent)
    ∧ 0 ≤ (mkRow tx m c).remaining
    ∧ ((mkRow tx m c).status = "✅" ↔
        (mkRow tx m c).effective_target ≤ (mkRow tx m c).spent)
    ∧ ((mkRow tx m c).effective_target = 0 → 0 ≤ (mkRow tx m c).spent →
        (mkRow tx m c).status = "✅") := by
  have heff : (mkRow tx m c).effective_target =
      max (c.monthly_target.getD 0 - c.fixed_cost.getD 0) 0 := rfl
  have hrem : (mkRow tx m c).remaining =
      max ((mkRow tx m c).effective_target - (mkRow tx m c).spent) 0 := rfl
  have hstat : (mkRow tx m c).status =
      (if (mkRow tx m c).effective_target ≤ (mkRow tx m c).spent
        then "✅" else "❌") := rfl
  refine ⟨by rw [heff, max_comm], ?_, by rw [hrem, max_comm], ?_, ?_, ?_⟩
  · rw [heff]
    exact le_max_right _ _
  · rw [hrem]
    exact le_max_right _ _
  · rw [hstat]
    split_ifs with h
    · exact ⟨fun _ => h, fun _ => rfl⟩
    · exact ⟨fun he => absurd he (by decide), fun hc => absurd hc h⟩
  · intro h0 hsp
    rw [hstat, if_pos (by omega)]

/-- Witness for C3 (amended): a card with target 0 and no spend is "met". -/
theorem dashboard_row_targets_spec_witness :
    (mkRow [] "2025-06" (Card.mk "c1" "A" (some 0) (some 0) true)).status
      = "✅" :=
  (dashboard_row_targets_spec [] "2025-06"
    (Card.mk "c1" "A" (some 0) (some 0) true)).2.2.2.2.2
    (by decide) (by decide)

/-- C7 counterexample: two unmet cards with remaining 10000 and 900.  The
sort key is the thousands-separated *string* of remaining ("10,000" < "900"
lexicographically), so the dashboard lists the remaining-10000 card first —
not ascending by remaining amount. -/
theorem compute_dashboard_sort_counterexample :
    ((compute_dashboard
        [Card.mk "c1" "A" (some 10000) (some 0) true,
         Card.mk "c2" "B" (some 900) (some 0) true] [] "2025-06").map
      (fun r => r.remaining)) = [10000, 900]
    ∧ ((compute_dashboard
        [Card.mk "c1" "A" (some 10000) (some 0) true,
         Card.mk "c2" "B" (some 900) (some 0) true] [] "2025-06").map
      (fun r => r.status)) = ["❌", "❌"]
    ∧ ¬ List.Pairwise (fun (a b : Int) => a ≤ b)
        ((compute_dashboard
          [Card.mk "c1" "A" (some 10000) (some 0) true,
           Card.mk "c2" "B" (some 900) (some 0) true] [] "2025-06").map
        (fun r => r.remaining)) := by
  decide

/-- C7 (amended): the dashboard output is sorted ascending by the composite
key (status, thousands-separated remaining display string compared as a
string, card name) — not by the numeric remaining amount — and is a
permutation of the per-active-card rows. -/
theorem compute_dashboard_sorted_spec (cards : List Card) (tx : List Tx)
    (m : String) :
    List.Sorted rowLe (compute_dashboard cards tx m)
    ∧ (compute_dashboard cards tx m).Perm (dashboardRows cards tx m) :=
  ⟨List.sorted_insertionSort rowLe _, List.perm_insertionSort rowLe _⟩

/- ----------------------------------------------------------------- -/
/- Batch reconciliation (src/app.py history save handler, 259-306)    -/
/- ----------------------------------------------------------------- -/

/-- A row of the editable history grid (`editor_df` columns `tx_id`, `날짜`,
`카드`, `항목`, `금액`, `삭제`). -/
structure EditedRow where
  tx_id : String
  dateText : String
  cardName : String
  itemText : String
  amountRaw : Option Int
  deleteFlag : Bool
deriving DecidableEq, Repr

/-- Python `dict(zip(active["card_name"], active["card_id"]))` then `.map`: a
dict lookup built from ACTIVE cards only.  Later duplicate names overwrite
earlier ones (dict semantics), hence the lookup over the reversed association
list; a display name matching no active card maps to null (`NaN`). -/
def name_to_id (active : List Card) (name : String) : Option String :=
  ((active.map (fun c => (c.card_name, c.card_id))).reverse).lookup name

/-- One reconciled transaction row (src/app.py lines 263-296): card id
re-resolved from the display name through `name_to_id`, date replaced by its
normalized form (the caller only uses this after checking normalization
succeeded), month recomputed as the 7-character prefix of the normalized
date, amount coerced with missing values as 0. -/
def reconRow (nd : String → Option String) (active : List Card)
    (e : EditedRow) : Tx :=
  let d := (nd e.dateText).getD ""
  { tx_id := e.tx_id
    date := d
    month := String.mk (d.data.take 7)
    card_id := name_to_id active e.cardName
    amount := some (e.amountRaw.getD 0)
    item := e.itemText }

/-- src/app.py history save handler (lines 259-303).  `nd` is the external
date normalizer (`pd.to_datetime(s).date().isoformat()` wrapped in
`try/except`, returning `none` when parsing raises).  Result `none` models
the abort path (`st.error` + `st.stop()` before any write); `some newTable`
is the table passed to `update_ws_from_df`:  delete-flagged rows dropped,
target-month rows of the old table replaced by the reconciled rows, and
retention cleanup re-applied to the combined table. -/
def saveHistory (nd : String → Option String) (active : List Card)
    (allowed : List String) (tx : List Tx) (selMonth : String)
    (edited : List EditedRow) : Option (List Tx) :=
  let kept := edited.filter (fun e => e.deleteFlag = false)
  if kept.all (fun e => (nd e.dateText).isSome) then
    let to_write := kept.map (reconRow nd active)
    let tx_all := (tx.filter (fun t => t.month ≠ selMonth)) ++ to_write
    some (cleanup_tx tx_all allowed)
  else none

/-- The persisted full table after a save attempt: the sheet is only
overwritten on the success path, so an abort leaves the old table. -/
def persistSave (nd : String → Option String) (active : List Card)
    (allowed : List String) (tx : List Tx) (selMonth : String)
    (edited : List EditedRow) : List Tx :=
  (saveHistory nd active allowed tx selMonth edited).getD tx

/-- Modelled from the spec: a minimal concrete instance of the external date
parser (`pd.to_datetime`) used to instantiate witnesses — it accepts exactly
canonical `YYYY-MM-DD` digit strings and normalizes them to themselves.  All
reconciliation theorems are proved for an arbitrary parser. -/
def isoNormalize (s : String) : Option String :=
  match s.data with
  | [y1, y2, y3, y4, '-', m1, m2, '-', d1, d2] =>
    if y1.isDigit && y2.isDigit && y3.isDigit && y4.isDigit &&
        m1.isDigit && m2.isDigit && d1.isDigit && d2.isDigit
    then some s else none
  | _ => none

/-- C1: if date normalization fails for at least one kept (non-deleted) row,
the whole reconciliation aborts (`none`) before any write and the persisted
table is exactly the table before the attempt. -/
theorem saveHistory_all_or_nothing (nd : String → Option String)
    (active : List Card) (allowed : List String) (tx : List Tx)
    (selMonth : String) (edited : List EditedRow)
    (h : ∃ e ∈ edited, e.deleteFlag = false ∧ nd e.dateText = none) :
    saveHistory nd active allowed tx selMonth edited = none
    ∧ persistSave nd active allowed tx selMonth edited = tx := by
  obtain ⟨e, he, hkeep, hfail⟩ := h
  have hmem : e ∈ edited.filter (fun e => e.deleteFlag = false) :=
    List.mem_filter.mpr ⟨he, by simp [hkeep]⟩
  have hall : (edited.filter (fun e => e.deleteFlag = false)).all
      (fun e => (nd e.dateText).isSome) = false := by
    rw [List.all_eq_false]
    exact ⟨e, hmem, by simp [hfail]⟩
  have h1 : saveHistory nd active allowed tx selMonth edited = none := by
    unfold saveHistory
    dsimp only
    rw [hall]
    rfl
  exact ⟨h1, by unfold persistSave; rw [h1]; rfl⟩

/-- Witness for C1: one kept row with an unparsable date aborts the batch and
leaves the old single-row table untouched. -/
theorem saveHistory_all_or_nothing_witness :
    saveHistory isoNormalize [] ["2025-06"]
        [Tx.mk "t0" "2025-06-01" "2025-06" none (some 1) ""] "2025-06"
        [EditedRow.mk "t1" "2025-06-02" "A" "" (some 5) false,
         EditedRow.mk "t2" "junk" "A" "" (some 7) false] = none
    ∧ persistSave isoNormalize [] ["2025-06"]
        [Tx.mk "t0" "2025-06-01" "2025-06" none (some 1) ""] "2025-06"
        [EditedRow.mk "t1" "2025-06-02" "A" "" (some 5) false,
         EditedRow.mk "t2" "junk" "A" "" (some 7) false] =
      [Tx.mk "t0" "2025-06-01" "2025-06" none (some 1) ""] :=
  saveHistory_all_or_nothing isoNormalize [] ["2025-06"]
    [Tx.mk "t0" "2025-06-01" "2025-06" none (some 1) ""] "2025-06"
    [EditedRow.mk "t1" "2025-06-02" "A" "" (some 5) false,
     EditedRow.mk "t2" "junk" "A" "" (some 7) false]
    ⟨EditedRow.mk "t2" "junk" "A" "" (some 7) false, by decide, rfl, by decide⟩

/-- C4: when every kept date parses, the saved table is exactly: the old
table minus the target month's rows, followed by the reconciled kept rows,
with retention cleanup applied to the combined result; and each reconciled
row's month is the 7-character prefix of its normalized date
(`edited["date"].map(lambda x: x[:7])`). -/
theorem saveHistory_replace_spec (nd : String → Option String)
    (active : List Card) (allowed : List String) (tx : List Tx)
    (selMonth : String) (edited : List EditedRow)
    (h : ∀ e ∈ edited, e.deleteFlag = false → (nd e.dateText).isSome = true) :
    saveHistory nd active allowed tx selMonth edited =
      some (cleanup_tx
        ((tx.filter (fun t => t.month ≠ selMonth)) ++
          (edited.filter (fun e => e.deleteFlag = false)).map
            (reconRow nd active))
        allowed)
    ∧ (∀ e ∈ edited, e.deleteFlag = false →
        (reconRow nd active e).month =
          String.mk (((nd e.dateText).getD "").data.take 7)) := by
  constructor
  · unfold saveHistory
    dsimp only
    rw [if_pos]
    rw [List.all_eq_true]
    intro e he
    have hm := List.mem_filter.mp he
    exact h e hm.1 (by simpa using hm.2)
  · intro e _ _
    rfl

/-- Witness for C4: a two-row batch (one delete-flagged, one kept) replaces
month 2025-06 of a two-month table and the kept row's month is recomputed. -/
theorem saveHistory_replace_spec_witness :
    saveHistory isoNormalize [Card.mk "c1" "A" (some 1000) (some 0) true]
        ["2025-05", "2025-06", "2025-07"]
        [Tx.mk "t0" "2025-05-01" "2025-05" (some "c1") (some 1) "",
         Tx.mk "t1" "2025-06-01" "2025-06" (some "c1") (some 2) ""]
        "2025-06"
        [EditedRow.mk "t1" "2025-06-09" "A" "x" (some 5) false,
         EditedRow.mk "t2" "2025-06-10" "A" "y" (some 7) true] =
      some [Tx.mk "t0" "2025-05-01" "2025-05" (some "c1") (some 1) "",
            Tx.mk "t1" "2025-06-09" "2025-06" (some "c1") (some 5) "x"] := by
  rw [(saveHistory_replace_spec isoNormalize
    [Card.mk "c1" "A" (some 1000) (some 0) true]
    ["2025-05", "2025-06", "2025-07"]
    [Tx.mk "t0" "2025-05-01" "2025-05" (some "c1") (some 1) "",
     Tx.mk "t1" "2025-06-01" "2025-06" (some "c1") (some 2) ""]
    "2025-06"
    [EditedRow.mk "t1" "2025-06-09" "A" "x" (some 5) false,
     EditedRow.mk "t2" "2025-06-10" "A" "y" (some 7) true]
    (by decide)).1]
  decide

theorem lookup_eq_none_of_keys_ne {β : Type} (l : List (String × β))
    (k : String) (h : ∀ p ∈ l, p.1 ≠ k) : l.lookup k = none := by
  induction l with
  | nil => rfl
  | cons a as ih =>
    have ha : (k == a.1) = false :=
      beq_eq_false_iff_ne.mpr (fun hh => h a (by simp) hh.symm)
    simp only [List.lookup, ha]
    exact ih (fun p hp => h p (by simp [hp]))

/-- C10: a kept edited row whose displayed card value matches no ACTIVE
card's display name (e.g. a row shown under the raw-card_id fallback because
its card is inactive or deleted) is reconciled with a null `card_id`; and
whenever the batch is saved, that unlinked row (if inside the retention
window) is a member of the written table. -/
theorem reconRow_unlinks_unknown_card (nd : String → Option String)
    (active : List Card) (allowed : List String) (tx : List Tx)
    (selMonth : String) (edited : List EditedRow) (e : EditedRow)
    (he : e ∈ edited) (hkeep : e.deleteFlag = false)
    (hname : ∀ c ∈ active, c.card_name ≠ e.cardName) :
    (reconRow nd active e).card_id = none
    ∧ (∀ newTx, saveHistory nd active allowed tx selMonth edited = some newTx →
        (reconRow nd active e).month ∈ allowed →
        reconRow nd active e ∈ newTx) := by
  have hnone : name_to_id active e.cardName = none := by
    unfold name_to_id
    apply lookup_eq_none_of_keys_ne
    intro p hp
    rw [List.mem_reverse, List.mem_map] at hp
    obtain ⟨c, hc, rfl⟩ := hp
    exact hname c hc
  refine ⟨hnone, ?_⟩
  intro newTx hsave hmonth
  unfold saveHistory at hsave
  dsimp only at hsave
  split_ifs at hsave with hall
  · have hnew := Option.some.inj hsave
    have hkept : e ∈ edited.filter (fun e => e.deleteFlag = false) :=
      List.mem_filter.mpr ⟨he, by simp [hkeep]⟩
    have h1 : reconRow nd active e ∈
        (edited.filter (fun e => e.deleteFlag = false)).map
          (reconRow nd active) :=
      List.mem_map_of_mem _ hkept
    have h2 : reconRow nd active e ∈
        (tx.filter (fun t => t.month ≠ selMonth)) ++
          (edited.filter (fun e => e.deleteFlag = false)).map
            (reconRow nd active) :=
      List.mem_append_right _ h1
    rw [← hnew, cleanup_tx_eq_filter]
    exact List.mem_filter.mpr ⟨h2, by simpa using hmonth⟩

/-- Witness for C10: a kept row pointing at the inactive card "B" (only "A"
is active) is written back with a null card id. -/
theorem reconRow_unlinks_unknown_card_witness :
    (reconRow isoNormalize [Card.mk "c1" "A" (some 1000) (some 0) true]
      (EditedRow.mk "t1" "2025-06-09" "B" "" (some 5) false)).card_id =
      none :=
  (reconRow_unlinks_unknown_card isoNormalize
    [Card.mk "c1" "A" (some 1000) (some 0) true]
    ["2025-05", "2025-06", "2025-07"] []
    "2025-06" [EditedRow.mk "t1" "2025-06-09" "B" "" (some 5) false]
    (EditedRow.mk "t1" "2025-06-09" "B" "" (some 5) false)
    (by decide) rfl (by decide)).1

/- ----------------------------------------------------------------- -/
/- Transaction entry form (src/app.py lines 199-211)                  -/
/- ----------------------------------------------------------------- -/

/-- Python `date.isoformat()`: `YYYY-MM-DD`. -/
def isoDate (d : PyDate) : String :=
  pad4 d.year ++ "-" ++ pad2 d.month ++ "-" ++ pad2 d.day

/-- Python `str.strip()`: drop leading and trailing whitespace. -/
def pyStrip (s : String) : String :=
  String.mk (((s.data.dropWhile (fun c => c.isWhitespace)).reverse.dropWhile
    (fun c => c.isWhitespace)).reverse)

/-- src/app.py tx-add submit handler: reject a ZERO amount
(`if amount == 0`), then reject an out-of-window month, otherwise append one
row (`append_row`) with a fresh id.  The result is the persisted transaction
table after the submission. -/
def txAddSubmit (tx : List Tx) (months : List String) (newId : String)
    (amount : Int) (d : PyDate) (cardId : String) (item : String) :
    List Tx :=
  if amount = 0 then tx
  else if ym (firstOfMonth d) ∉ months then tx
  else tx ++ [{ tx_id := newId
                date := isoDate d
                month := ym (firstOfMonth d)
                card_id := some cardId
                amount := some amount
                item := pyStrip item }]

/-- C9 counterexample: a submission with the non-positive amount −1000 and an
in-window date IS appended (the code only rejects `amount == 0`; negative
adjustment entries are deliberately allowed). -/
theorem txAddSubmit_counterexample :
    txAddSubmit [] ["2025-05", "2025-06", "2025-07"] "t9" (-1000)
        (PyDate.mk 2025 6 15) "c1" "" =
      [Tx.mk "t9" "2025-06-15" "2025-06" (some "c1") (some (-1000)) ""]
    ∧ (-1000 : Int) ≤ 0 := by
  decide

/-- C9 (amended): the entry form rejects exactly a ZERO amount (and likewise
an out-of-window date) before any write, leaving the persisted table
unchanged; any non-zero amount — including negative manual adjustments — with
an in-window date appends exactly one row. -/
theorem txAddSubmit_reject_spec (tx : List Tx) (months : List String)
    (newId : String) (amount : Int) (d : PyDate) (cardId item : String) :
    (amount = 0 → txAddSubmit tx months newId amount d cardId item = tx)
    ∧ (ym (firstOfMonth d) ∉ months →
        txAddSubmit tx months newId amount d cardId item = tx)
    ∧ (amount ≠ 0 → ym (firstOfMonth d) ∈ months →
        txAddSubmit tx months newId amount d cardId item =
          tx ++ [Tx.mk newId (isoDate d) (ym (firstOfMonth d)) (some cardId)
            (some amount) (pyStrip item)]) := by
  refine ⟨fun h0 => ?_, fun hnm => ?_, fun h0 hm => ?_⟩
  · unfold txAddSubmit
    rw [if_pos h0]
  · unfold txAddSubmit
    split_ifs with h1 h2 <;> simp_all
  · unfold txAddSubmit
    rw [if_neg h0, if_neg (fun hc => hc hm)]

/-- Witness for C9 (amended): a zero-amount submission leaves the table
unchanged. -/
theorem txAddSubmit_reject_spec_witness :
    txAddSubmit [] ["2025-06"] "t0" 0 (PyDate.mk 2025 6 1) "c1" "" = [] :=
  (txAddSubmit_reject_spec [] ["2025-06"] "t0" 0 (PyDate.mk 2025 6 1)
    "c1" "").1 rfl

/- ----------------------------------------------------------------- -/
/- Month-end risk annotator (src/app.py get_month_end_info, 68-84)    -/
/- ----------------------------------------------------------------- -/

/-- Days before January 1 of year `y` in the proleptic Gregorian calendar
(`date.toordinal` arithmetic). -/
def daysBeforeYear (y : Nat) : Nat :=
  365 * (y - 1) + (y - 1) / 4 + (y - 1) / 400 - (y - 1) / 100

/-- Days in year `y` before the first of month `m`. -/
def daysBeforeMonth (y m : Nat) : Nat :=
  ((List.range (m - 1)).map (fun i => daysInMonth y (i + 1))).sum

/-- Python `date(y, m, d).toordinal()`: day count with 0001-01-01 as day 1. -/
def toOrdinal (y m d : Nat) : Nat := daysBeforeYear y + daysBeforeMonth y m + d

/-- Python `date.weekday()`: 0 = Monday … 6 = Sunday. -/
def weekday (y m d : Nat) : Nat := (toOrdinal y m d + 6) % 7

/-- Modelled from the spec: the region-specific (Korea) public-holiday
calendar is provided by the external `holidays` library
(`holidays.country_holidays("KR", years=[year])`), which is not repository
code; it is modelled as an abstract lookup from a (year, month, day) date to
the optional holiday name (`end_dt in kr_holidays` / `kr_holidays.get`). -/
def KrHolidays : Type := Nat → Nat → Nat → Option String

/-- The classification core of src/app.py `get_month_end_info` (lines 70-84),
after the `month.split("-")` parse: last calendar day, weekend test
(`weekday() >= 5`), holiday lookup, and the reason string
(공휴일(name) / 주말 / 영업일). -/
def month_end_core (hol : KrHolidays) (year mon : Nat) :
    PyDate × Bool × String :=
  let last_day := daysInMonth year mon
  let end_dt : PyDate := ⟨year, mon, last_day⟩
  let is_weekend : Bool := decide (5 ≤ weekday year mon last_day)
  let holName := hol year mon last_day
  let reason :=
    match holName with
    | some name => "공휴일(" ++ name ++ ")"
    | none => if is_weekend then "주말" else "영업일"
  (end_dt, is_weekend || holName.isSome, reason)

/-- Split a character list at `'-'` (Python `str.split("-")`). -/
def splitDash : List Char → List (List Char)
  | [] => [[]]
  | c :: rest =>
    match splitDash rest with
    | [] => [[]]
    | g :: gs => if c = '-' then [] :: g :: gs else (c :: g) :: gs

/-- Python `int()` on a digit string (the only shapes reaching it here). -/
def charsToNat (l : List Char) : Option Nat :=
  if l ≠ [] ∧ l.all (fun c => c.isDigit) then
    some (l.foldl (fun acc c => acc * 10 + (c.toNat - 48)) 0)
  else none

/-- src/app.py `get_month_end_info`: parse `"YYYY-MM"`
(`year, mon = map(int, month.split("-"))`) then classify the month's last
calendar day. -/
def get_month_end_info (hol : KrHolidays) (month : String) :
    PyDate × Bool × String :=
  let parts := splitDash month.data
  month_end_core hol ((charsToNat (parts.getD 0 [])).getD 0)
    ((charsToNat (parts.getD 1 [])).getD 0)

/-- C8: the month-end annotator returns the month's last calendar day, its
flag is true iff that day is a weekend (weekday ≥ 5) or a listed Korean
public holiday, the reason string carries the holiday name when the day is a
holiday; and for "2025-02" the last day is 2025-02-28 — a Friday
(weekday 4) — classified as a business day (영업일) with no warning whenever
the holiday calendar has no entry for that date (as the real Korean calendar
does not). -/
theorem month_end_info_spec (hol : KrHolidays) (y m : Nat)
    (hy : 1 ≤ y) (hm : 1 ≤ m ∧ m ≤ 12) :
    (month_end_core hol y m).1 = PyDate.mk y m (daysInMonth y m)
    ∧ ((month_end_core hol y m).2.1 = true ↔
        (5 ≤ weekday y m (daysInMonth y m) ∨
          (hol y m (daysInMonth y m)).isSome = true))
    ∧ (∀ name, hol y m (daysInMonth y m) = some name →
        (month_end_core hol y m).2.2 = "공휴일(" ++ name ++ ")")
    ∧ (hol 2025 2 28 = none →
        get_month_end_info hol "2025-02" =
          (PyDate.mk 2025 2 28, false, "영업일"))
    ∧ weekday 2025 2 28 = 4 := by
  refine ⟨rfl, ?_, ?_, ?_, by decide⟩
  · unfold month_end_core
    dsimp only
    cases hname : hol y m (daysInMonth y m) <;> simp [hname]
  · intro name hname
    unfold month_end_core
    dsimp only
    rw [hname]
  · intro h28
    have hred : get_month_end_info hol "2025-02" = month_end_core hol 2025 2 :=
      rfl
    rw [hred]
    unfold month_end_core
    dsimp only
    have hd : daysInMonth 2025 2 = 28 := rfl
    rw [hd, h28]
    decide

/-- Witness for C8: with an empty holiday calendar, "2025-02" is annotated
(2025-02-28, no warning, 영업일). -/
theorem month_end_info_spec_witness :
    get_month_end_info (fun _ _ _ => none) "2025-02" =
      (PyDate.mk 2025 2 28, false, "영업일") :=
  (month_end_info_spec (fun _ _ _ => none) 2025 2 (by decide)
    ⟨by decide, by decide⟩).2.2.2.1 rfl

end CardTracker
